import Mathlib

/-!
Shallow embedding of the ai-sdk-model-router package.

Sources embedded:
  * src/src/index.ts        — configuration-object router (`modelRouter`,
    `extractToolCallHistory`, `selectModel`);
  * src/unnamed/part_001    — positional-argument router variant
    (`Positional.router`, `Positional.selectModel`).

Modelling conventions:
  * JavaScript values that may be `undefined`/`null` are `Option`s; the
    JS `||` operator on strings is `jsOrStr` (treats `some ""` as falsy,
    like JS treats the empty string).
  * `Date.now()` is an ambient clock oracle `ts : Nat → String`, indexed
    by the number of clock reads performed so far in the walk.
  * The insertion-ordered JS `Map` of pending tool calls is an
    association list in insertion order; `Map.set` on an existing key
    replaces the value in place (JS keeps the original position).
  * Tool-call argument values are modelled abstractly by their JSON
    serialization text (`Option String`; `none` = a falsy JS value).
    `JSON.stringify(undefined)` returns `undefined`, so formatting a
    completed call whose `args` is `none` raises a `TypeError`, which the
    embedding surfaces through `Except`.
  * Model invocation effects (the reasoning model behind
    `generateObject`, the delegates' `doGenerate`/`doStream`) are
    functions into `Except JsError _`; promise rejection is the
    `.error` branch.
-/

/-- Errors a JS execution of the router can surface: thrown `Error`s and
runtime `TypeError`s. -/
inductive JsError where
  | thrown (message : String)
  | typeError (message : String)
deriving DecidableEq, Repr

/-- A recorded tool call: `{ toolName: part.toolName, args: part.args || part.input }`
(index.ts line 101-104). `toolName` may be `undefined` in JS, hence `Option`. -/
structure TCall where
  toolName : Option String
  args : Option String
deriving DecidableEq, Repr

/-- A content part of a message, duck-typed in the source: only the fields
the walk inspects are modelled. -/
structure ContentPart where
  type : String
  toolCallId : Option String := none
  id : Option String := none
  toolName : Option String := none
  args : Option String := none
  input : Option String := none
deriving DecidableEq, Repr

/-- A message's `content` field: either an array of parts or some
non-array value (`Array.isArray(message.content)` is the only inspection
the source performs on the shape, index.ts line 94). -/
inductive ContentVal where
  | arr (parts : List ContentPart)
  | nonArray
deriving DecidableEq, Repr

/-- A conversation message (`role` + `content`). -/
structure Message where
  role : String
  content : ContentVal
deriving DecidableEq, Repr

/-- JS truthiness of a string-valued expression: `undefined` and `""` are
falsy. -/
def optTruthy : Option String → Bool
  | some s => s ≠ ""
  | none => false

/-- JS `a || b` on string-valued expressions: yields `b` (whatever it is)
when `a` is falsy. -/
def jsOrStr (a b : Option String) : Option String :=
  if optTruthy a then a else b

/-- JS string interpolation of a possibly-undefined string:
`` `${x}` `` prints `undefined` for the undefined value. -/
def jsShow : Option String → String
  | some s => s
  | none => "undefined"

/-- JS `a || d` where `d` is a truthy string (the synthesized fallback
key): returns `a`'s value when truthy, else `d`. -/
def jsOrD (a : Option String) (d : String) : String :=
  match a with
  | some s => if s = "" then d else s
  | none => d

/-- `Map.set k v` on an insertion-ordered map: replace in place if the
key is present, else append. -/
def mapSet (k : String) (v : TCall) : List (String × TCall) → List (String × TCall)
  | [] => [(k, v)]
  | (k', v') :: rest => if k' = k then (k', v) :: rest else (k', v') :: mapSet k v rest

/-- `Map.has k` / `Map.get k` / `Map.delete k` combined: the value stored
under `k` together with the map with that entry removed, or `none` when
the key is absent (index.ts lines 115-118 perform exactly this trio). -/
def mapTake (k : String) : List (String × TCall) → Option (TCall × List (String × TCall))
  | [] => none
  | (k', v) :: rest =>
    if k' = k then some (v, rest)
    else (mapTake k rest).map (fun r => (r.1, (k', v) :: r.2))

/-- The name-fallback loop (index.ts lines 121-127): iterate the pending
map in insertion order, take the first entry whose stored `toolName`
equals the result's tool name, remove it (its key is unique in the map,
so `pendingToolCalls.delete(id)` removes exactly that entry) and stop. -/
def removeFirstByName (tn : String) : List (String × TCall) → Option (TCall × List (String × TCall))
  | [] => none
  | (k, c) :: rest =>
    if c.toolName = some tn then some (c, rest)
    else (removeFirstByName tn rest).map (fun r => (r.1, (k, c) :: r.2))

/-- State of the message walk in `extractToolCallHistory`: the completed
calls in completion order, the pending map, and the number of
`Date.now()` reads performed so far. -/
structure WalkSt where
  completed : List TCall
  pending : List (String × TCall)
  ctr : Nat
deriving DecidableEq, Repr

/-- Processing one part of an assistant message (index.ts lines 98-105):
a `tool-call` part is recorded as pending under
`part.toolCallId || part.id || toolName-Date.now()`; `Date.now()` is only
evaluated (and the clock counter advanced) when both ids are falsy. -/
def procToolCallPart (ts : Nat → String) (p : ContentPart) (st : WalkSt) : WalkSt :=
  if p.type = "tool-call" then
    let ids := jsOrStr p.toolCallId p.id
    let callId := jsOrD ids (jsShow p.toolName ++ "-" ++ ts st.ctr)
    { completed := st.completed
      pending := mapSet callId ⟨p.toolName, jsOrStr p.args p.input⟩ st.pending
      ctr := if optTruthy ids then st.ctr else st.ctr + 1 }
  else st

/-- The name-fallback branch of result matching (index.ts lines 119-128):
when the result carries a truthy `toolName`, complete the first pending
call with that name; otherwise do nothing. -/
def resultNameFallback (toolName : Option String) (st : WalkSt) : WalkSt :=
  match toolName with
  | some tn =>
    if tn = "" then st
    else
      match removeFirstByName tn st.pending with
      | some (c, m') => ⟨st.completed ++ [c], m', st.ctr⟩
      | none => st
  | none => st

/-- Processing one part of a tool message (index.ts lines 109-129): a
`tool-result` part whose `part.toolCallId || part.id` is truthy and
present in the pending map completes that call; otherwise matching falls
back to the tool name. -/
def procToolResultPart (p : ContentPart) (st : WalkSt) : WalkSt :=
  if p.type = "tool-result" then
    match jsOrStr p.toolCallId p.id with
    | some s =>
      if s = "" then resultNameFallback p.toolName st
      else
        match mapTake s st.pending with
        | some (c, m') => ⟨st.completed ++ [c], m', st.ctr⟩
        | none => resultNameFallback p.toolName st
    | none => resultNameFallback p.toolName st
  else st

/-- Processing one message of the transcript (index.ts lines 93-131):
messages whose `content` is not an array are skipped; assistant messages
record tool calls, tool messages match results, other roles are ignored. -/
def procMessage (ts : Nat → String) (m : Message) (st : WalkSt) : WalkSt :=
  match m.content with
  | .nonArray => st
  | .arr parts =>
    if m.role = "assistant" then
      parts.foldl (fun s p => procToolCallPart ts p s) st
    else if m.role = "tool" then
      parts.foldl (fun s p => procToolResultPart p s) st
    else st

/-- The walk over a transcript starting from a given state. -/
def walkFrom (ts : Nat → String) (msgs : List Message) (st : WalkSt) : WalkSt :=
  msgs.foldl (fun s m => procMessage ts m s) st

/-- The full message walk of `extractToolCallHistory` (index.ts lines
89-132), started from empty accumulators. -/
def walkMessages (ts : Nat → String) (msgs : List Message) : WalkSt :=
  walkFrom ts msgs ⟨[], [], 0⟩

/-- `completedToolCalls` after the walk (index.ts line 89 / 117 / 123). -/
def completedToolCalls (ts : Nat → String) (msgs : List Message) : List TCall :=
  (walkMessages ts msgs).completed

/-- JS `array.slice(-n)` for a non-negative count `n`: the last `n`
elements, except that `slice(-0)` = `slice(0)` = the whole array. -/
def jsSliceNeg (l : List TCall) (n : Nat) : List TCall :=
  if n = 0 then l else l.drop (l.length - n)

/-- `recentCalls` of `extractToolCallHistory` (index.ts line 135): the
last `maxCalls` completed calls. -/
def recentCalls (ts : Nat → String) (msgs : List Message) (maxCalls : Nat) : List TCall :=
  jsSliceNeg (completedToolCalls ts msgs) maxCalls

/-- Formatting one history entry (index.ts lines 143-145):
`` `${idx + 1}. ${call.toolName}(${argsPreview}${...})` `` where
`argsPreview = JSON.stringify(call.args, null, 0).substring(0, 100)`.
`JSON.stringify` of the abstract serialized text is the text itself;
when `call.args` is the undefined value, `JSON.stringify` returns
`undefined` and the `.substring` access raises a `TypeError`. -/
def formatCall (idx : Nat) (c : TCall) : Except JsError String :=
  match c.args with
  | none => .error (.typeError "Cannot read properties of undefined (reading substring)")
  | some a =>
    let argsPreview := a.take 100
    .ok (toString (idx + 1) ++ ". " ++ jsShow c.toolName ++ "(" ++ argsPreview ++
      (if 100 ≤ argsPreview.length then "..." else "") ++ ")")

/-- JS `array.map((x, idx) => f(idx, x))` over `Except`: evaluated left to
right, the first thrown error propagates. -/
def formatCallsFrom (idx : Nat) : List TCall → Except JsError (List String)
  | [] => .ok []
  | c :: rest =>
    match formatCall idx c with
    | .error e => .error e
    | .ok s => (formatCallsFrom (idx + 1) rest).map (fun l => s :: l)

/-- `extractToolCallHistory(messages, maxCalls)` (index.ts lines 81-148).
`messages = none` is an absent/undefined transcript. The result string is
wrapped in `Except` because the final formatting step can raise a
`TypeError` (see `formatCall`). -/
def extractToolCallHistory (ts : Nat → String) (messages : Option (List Message))
    (maxCalls : Nat) : Except JsError String :=
  match messages with
  | none => .ok "None - This is the first request"
  | some msgs =>
    if msgs.length = 0 then .ok "None - This is the first request"
    else
      let recent := jsSliceNeg (completedToolCalls ts msgs) maxCalls
      if recent.length = 0 then .ok "None - No tools have been called yet"
      else (formatCallsFrom 0 recent).map (String.intercalate "\n")

/-- A tool value in the options' tool map: only the `description` field
is inspected (`'description' in tool ? tool.description : 'No description'`,
index.ts line 160); `none` models a tool without a description key. -/
structure ToolDef where
  description : Option String := none
deriving DecidableEq, Repr

/-- The result of `doGenerate` of a delegate model, opaque to the router. -/
structure GenResult where
  payload : String
deriving DecidableEq, Repr

/-- The stream handle returned by `doStream` of a delegate model, opaque
to the router. -/
structure StreamRes where
  payload : String
deriving DecidableEq, Repr

/-- The fields of `LanguageModelV2CallOptions` the router inspects; all
other fields ride along opaquely in `rest`. `tools = none` models an
absent tool map (JS falsy); a present map is its `Object.entries` list,
which is truthy in JS even when empty. `messages = none` models the
absence of a `messages` key; `promptArr = some _` models a `prompt` key
holding an array (`Array.isArray`), `none` covers an absent or non-array
`prompt`. -/
structure CallOptions where
  tools : Option (List (String × ToolDef)) := none
  messages : Option (List Message) := none
  promptArr : Option (List Message) := none
  rest : String := ""
deriving Repr

/-- A `LanguageModelV2` as the router consumes and produces it: identity
fields plus the two generation methods. -/
structure LanguageModelV2 where
  specificationVersion : String := "v2"
  provider : String
  modelId : String
  doGenerate : CallOptions → Except JsError GenResult
  doStream : CallOptions → Except JsError StreamRes

/-- `ModelRouterConfig`: a model plus its routing description. -/
structure ModelRouterConfig where
  model : LanguageModelV2
  description : String

/-- The structured selection result declared by the zod schema
(index.ts lines 182-187). -/
structure SelectionResult where
  modelIndex : Int
  reasoning : String
deriving DecidableEq, Repr

/-- The reasoning model as consumed through `generateObject`: a function
from the decision prompt to a structured result or a failure. -/
def ReasoningModel := String → Except JsError SelectionResult

/-- The zod schema bounds check of `selectionSchema`:
`z.number().int().min(1).max(models.length)` (integrality is inherent in
the `Int` model). -/
def schemaOk (n : Nat) (r : SelectionResult) : Bool :=
  1 ≤ r.modelIndex && r.modelIndex ≤ (n : Int)

/-- `generateObject({ model, schema, prompt })` (index.ts lines 216-220):
asks the reasoning model and validates the declared schema, failing when
the output violates it. -/
def generateObjectSel (model : ReasoningModel) (n : Nat) (prompt : String) :
    Except JsError SelectionResult :=
  match model prompt with
  | .error e => .error e
  | .ok r => if schemaOk n r then .ok r else .error (.thrown "response did not match schema")

/-- Rendering of the available tools (index.ts lines 158-163):
`options.tools ? Object.entries(...).map(...).join` — a present map is a
truthy JS object even when it has zero entries, so only an absent map
renders as the `None` sentinel; an empty map renders as `[].join`, the
empty string. -/
def availableToolsString (tools : Option (List (String × ToolDef))) : String :=
  match tools with
  | none => "None"
  | some ts =>
    String.intercalate "\n" (ts.map (fun e => e.1 ++ ": " ++
      (match e.2.description with
       | some d => d
       | none => "No description")))

/-- The enumerated candidate lines (index.ts lines 177-179):
`` `${idx + 1}. ${`Model ${idx + 1}`}: ${m.description}` ``. -/
def modelOptionLines : Nat → List ModelRouterConfig → List String
  | _, [] => []
  | idx, m :: rest =>
    (toString (idx + 1) ++ ". Model " ++ toString (idx + 1) ++ ": " ++ m.description)
      :: modelOptionLines (idx + 1) rest

/-- `modelOptions` of `selectModel` (index.ts lines 177-179). -/
def modelOptionsString (models : List ModelRouterConfig) : String :=
  String.intercalate "\n" (modelOptionLines 0 models)

/-- The decision prompt template of `selectModel` in index.ts (lines
189-212), with the interpolated holes as parameters. -/
def selectionPromptV1 (inputPrompt availableTools toolCallHistory modelOptions : String)
    (n : Nat) : String :=
  "You are a model router. Select the SINGLE BEST language model to handle the CURRENT request.\n\nUser Query:\n"
  ++ inputPrompt
  ++ "\n\nAvailable Tools:\n"
  ++ availableTools
  ++ "\n\nTool Call History (completed calls with successful results):\n"
  ++ toolCallHistory
  ++ "\n\nAvailable Models:\n"
  ++ modelOptions
  ++ "\n\nCRITICAL INSTRUCTIONS:\n- You must select EXACTLY ONE model by number\n- Use 1-based indexing: valid numbers are 1 to "
  ++ toString n
  ++ " (NEVER use 0)\n- Match the model\x27s specialty to the query and available tools\n- Consider which tools have already been called successfully\n- For sequential workflows, select the model best suited for the NEXT logical step\n- If the query has multiple tasks, pick the model best suited for the CURRENT or MOST IMPORTANT task\n- Example: If getMarketData was called, and now we need financial analysis, select the financial analysis specialist\n\nYour response MUST include a modelIndex between 1 and "
  ++ toString n
  ++ "."

/-- The transcript lookup of `selectModel` (index.ts lines 166-172):
prefer a `messages` key, else a `prompt` key holding an array. -/
def extractMessages (options : CallOptions) : Option (List Message) :=
  match options.messages with
  | some msgs => some msgs
  | none => options.promptArr

/-- JS indexing `models[i]` with a signed index: out-of-range yields
`undefined` (`none`), on which the subsequent `.model` access would be a
`TypeError`. -/
def listAtInt (l : List ModelRouterConfig) (i : Int) : Option ModelRouterConfig :=
  if i < 0 then none else l.get? i.toNat

/-- `selectModel` of index.ts (lines 150-229): render tools, history and
candidates, build the decision prompt, ask the reasoning model for a
schema-validated index, and resolve `models[modelIndex - 1].model`. -/
def selectModel (reasoningModel : ReasoningModel) (models : List ModelRouterConfig)
    (inputPrompt : String) (options : CallOptions) (ts : Nat → String) :
    Except JsError LanguageModelV2 :=
  let availableTools := availableToolsString options.tools
  match extractToolCallHistory ts (extractMessages options) 10 with
  | .error e => .error e
  | .ok toolCallHistory =>
    let selectionPrompt := selectionPromptV1 inputPrompt availableTools toolCallHistory
      (modelOptionsString models) models.length
    match generateObjectSel reasoningModel models.length selectionPrompt with
    | .error e => .error e
    | .ok result =>
      match listAtInt models (result.modelIndex - 1) with
      | none => .error (.typeError "Cannot read properties of undefined (reading model)")
      | some cfg => .ok cfg.model

/-- The `doGenerate` closure of the router proxy (index.ts lines 57-63):
select, then delegate with the very same options. -/
def routerDoGenerate (reasoningModel : ReasoningModel) (models : List ModelRouterConfig)
    (inputPrompt : String) (ts : Nat → String) (options : CallOptions) :
    Except JsError GenResult :=
  match selectModel reasoningModel models inputPrompt options ts with
  | .error e => .error e
  | .ok selectedModel => selectedModel.doGenerate options

/-- The `doStream` closure of the router proxy (index.ts lines 65-71). -/
def routerDoStream (reasoningModel : ReasoningModel) (models : List ModelRouterConfig)
    (inputPrompt : String) (ts : Nat → String) (options : CallOptions) :
    Except JsError StreamRes :=
  match selectModel reasoningModel models inputPrompt options ts with
  | .error e => .error e
  | .ok selectedModel => selectedModel.doStream options

/-- `ModelRouterOptions` (index.ts lines 24-33). -/
structure ModelRouterOptions where
  prompt : String
  reasoningModel : ReasoningModel
  models : List ModelRouterConfig
  debug : Bool := false

/-- `modelRouter(config)` (index.ts lines 39-75): throws the
configuration error on an empty candidate list, else returns the proxy
model whose two methods select-then-delegate. The synchronous throw is
the `Except.error` branch; debug logging is a console side effect with no
bearing on the returned data and is not modelled. -/
def modelRouter (ts : Nat → String) (config : ModelRouterOptions) :
    Except JsError LanguageModelV2 :=
  if config.models.length = 0 then
    .error (.thrown "Router requires at least one model configuration")
  else
    .ok { specificationVersion := "v2"
          provider := "model-router"
          modelId := "model-router"
          doGenerate := routerDoGenerate config.reasoningModel config.models config.prompt ts
          doStream := routerDoStream config.reasoningModel config.models config.prompt ts }

namespace Positional

/-- `RouterOptions` of the positional variant (part_001 lines 24-27). -/
structure RouterOptions where
  debug : Bool := false

/-- The decision prompt template of `selectModel` in the positional
variant (part_001 lines 107-125): no tool-call-history section, and the
valid-numbers line hardcodes "1, 2, or 3" independently of the candidate
count. -/
def selectionPromptV2 (inputPrompt availableTools modelOptions : String) (n : Nat) : String :=
  "You are a model router. Select the SINGLE BEST language model to handle the CURRENT request.\n\nUser Query:\n"
  ++ inputPrompt
  ++ "\n\nAvailable Tools:\n"
  ++ availableTools
  ++ "\n\nAvailable Models:\n"
  ++ modelOptions
  ++ "\n\nCRITICAL INSTRUCTIONS:\n- You must select EXACTLY ONE model by number\n- Use 1-based indexing: valid numbers are 1, 2, or 3 (NEVER use 0)\n- Match the model\x27s specialty to the query and available tools\n- If the query has multiple tasks, pick the model best suited for the FIRST or MOST IMPORTANT task\n- Example: If asked for weather AND financial report, and Model 1 specializes in weather, select 1\n\nYour response MUST include a modelIndex between 1 and "
  ++ toString n
  ++ "."

/-- `selectModel` of the positional variant (part_001 lines 79-142): like
the configuration-object variant but with no transcript walk and the
variant prompt. -/
def selectModel (reasoningModel : ReasoningModel) (models : List ModelRouterConfig)
    (inputPrompt : String) (options : CallOptions) :
    Except JsError LanguageModelV2 :=
  let availableTools := availableToolsString options.tools
  let selectionPrompt := selectionPromptV2 inputPrompt availableTools
    (modelOptionsString models) models.length
  match generateObjectSel reasoningModel models.length selectionPrompt with
  | .error e => .error e
  | .ok result =>
    match listAtInt models (result.modelIndex - 1) with
    | none => .error (.typeError "Cannot read properties of undefined (reading model)")
    | some cfg => .ok cfg.model

/-- The `doGenerate` closure of the positional proxy (part_001 lines 59-65). -/
def routerDoGenerate (reasoningModel : ReasoningModel) (models : List ModelRouterConfig)
    (inputPrompt : String) (options : CallOptions) : Except JsError GenResult :=
  match selectModel reasoningModel models inputPrompt options with
  | .error e => .error e
  | .ok selectedModel => selectedModel.doGenerate options

/-- The `doStream` closure of the positional proxy (part_001 lines 67-73). -/
def routerDoStream (reasoningModel : ReasoningModel) (models : List ModelRouterConfig)
    (inputPrompt : String) (options : CallOptions) : Except JsError StreamRes :=
  match selectModel reasoningModel models inputPrompt options with
  | .error e => .error e
  | .ok selectedModel => selectedModel.doStream options

/-- `router(reasoningModel, models, inputPrompt, options)` (part_001
lines 36-77): throws the configuration error on an empty candidate list,
else returns the proxy. -/
def router (reasoningModel : ReasoningModel) (models : List ModelRouterConfig)
    (inputPrompt : String) (options : RouterOptions := {}) :
    Except JsError LanguageModelV2 :=
  if models.length = 0 then
    .error (.thrown "Router requires at least one model configuration")
  else
    .ok { specificationVersion := "v2"
          provider := "model-router"
          modelId := "model-router"
          doGenerate := routerDoGenerate reasoningModel models inputPrompt
          doStream := routerDoStream reasoningModel models inputPrompt }

end Positional

/-- The payload a `tool-call` part would record (the value stored in the
pending map by `procToolCallPart`). -/
def partPayload (p : ContentPart) : List TCall :=
  if p.type = "tool-call" then [⟨p.toolName, jsOrStr p.args p.input⟩] else []

/-- The tool-call payloads contributed by one message: only assistant
messages with array content record calls. -/
def msgPayloads (m : Message) : List TCall :=
  match m.content with
  | .nonArray => []
  | .arr parts => if m.role = "assistant" then parts.flatMap partPayload else []

/-- All tool-call payloads of a transcript, in transcript order. -/
def toolCallPayloads (msgs : List Message) : List TCall :=
  msgs.flatMap msgPayloads

/-- Occurrence count of a recorded call in a list of calls. -/
def occCount (c : TCall) (l : List TCall) : Nat :=
  l.countP (fun x => decide (x = c))

/-- Does a message carry array-shaped content? (index.ts line 94). -/
def contentIsArray (m : Message) : Bool :=
  match m.content with
  | .arr _ => true
  | .nonArray => false

/-! Concrete fixtures used by witnesses and counterexamples. -/

/-- A constant clock oracle for concrete runs. -/
def tsConst : Nat → String := fun _ => "1700000000000"

/-- A concrete delegate model. -/
def dummyModel (id : String) : LanguageModelV2 :=
  { provider := "test"
    modelId := id
    doGenerate := fun _ => .ok ⟨"gen-" ++ id⟩
    doStream := fun _ => .ok ⟨"stream-" ++ id⟩ }

/-- A reasoning model that always returns the same structured result. -/
def constReason (r : SelectionResult) : ReasoningModel := fun _ => .ok r

/-- First candidate fixture. -/
def cfgOne : ModelRouterConfig := ⟨dummyModel "m1", "first specialist"⟩

/-- Second candidate fixture. -/
def cfgTwo : ModelRouterConfig := ⟨dummyModel "m2", "second specialist"⟩

/-- A tool-call content part fixture. -/
def exCallPart : ContentPart :=
  { type := "tool-call"
    toolCallId := some "call-1"
    toolName := some "getMarketData"
    args := some "industry tech" }

/-- A tool-result content part fixture matching `exCallPart` by id. -/
def exResultPart : ContentPart :=
  { type := "tool-result"
    toolCallId := some "call-1"
    toolName := some "getMarketData" }

/-- A transcript with one tool call and its matching result. -/
def exMsgs : List Message :=
  [⟨"assistant", .arr [exCallPart]⟩, ⟨"tool", .arr [exResultPart]⟩]

/-! Claim theorems. -/

/-- C8: for an absent or empty conversation transcript,
`extractToolCallHistory` returns the first-request sentinel string
`"None - This is the first request"` (the code's rendering of the
no-tools-called-yet condition on a first call), which is not the empty
string, so the history section of the selection prompt is never empty. -/
theorem empty_transcript_sentinel (ts : Nat → String) (maxCalls : Nat) :
    extractToolCallHistory ts none maxCalls = .ok "None - This is the first request" ∧
    extractToolCallHistory ts (some []) maxCalls = .ok "None - This is the first request" ∧
    "None - This is the first request" ≠ "" :=
  ⟨rfl, rfl, by decide⟩

/-- C6 counterexample: a present tool map with zero entries does not
render as the `"None"` sentinel — a present (truthy) empty map takes the
`Object.entries` branch and `[].join` yields the empty string. -/
theorem empty_toolmap_not_none : availableToolsString (some []) ≠ "None" := by
  decide

/-- C6 amended: the rendered tool list is the `"None"` sentinel exactly
when no tool map is present; a present tool map with zero entries
renders as the empty string. -/
theorem toolList_rendering_sentinels :
    availableToolsString none = "None" ∧ availableToolsString (some []) = "" :=
  ⟨rfl, rfl⟩

/-- C2: for every non-empty candidate list both construction variants
succeed (return a proxy), and for the empty list both always throw the
configuration error before returning a usable proxy. -/
theorem router_construction_nonempty_iff (ts : Nat → String) (config : ModelRouterOptions)
    (rm : ReasoningModel) (models : List ModelRouterConfig) (p : String)
    (opts : Positional.RouterOptions) :
    ((modelRouter ts config).isOk ↔ config.models ≠ []) ∧
    (config.models = [] → modelRouter ts config =
      .error (.thrown "Router requires at least one model configuration")) ∧
    ((Positional.router rm models p opts).isOk ↔ models ≠ []) ∧
    (models = [] → Positional.router rm models p opts =
      .error (.thrown "Router requires at least one model configuration")) := by
  refine ⟨?_, ?_, ?_, ?_⟩
  · by_cases h : config.models = [] <;>
      simp [modelRouter, h, List.length_eq_zero, Except.isOk, Except.toBool]
  · intro h; simp [modelRouter, h]
  · by_cases h : models = [] <;>
      simp [Positional.router, h, List.length_eq_zero, Except.isOk, Except.toBool]
  · intro h; simp [Positional.router, h]

/-- C2 witness: a singleton candidate list constructs successfully in
both variants, and the empty list yields the configuration error in both. -/
theorem router_construction_nonempty_iff_witness :
    (modelRouter tsConst ⟨"q", constReason ⟨1, "r"⟩, [cfgOne], false⟩).isOk ∧
    (Positional.router (constReason ⟨1, "r"⟩) [cfgOne] "q" {}).isOk ∧
    modelRouter tsConst ⟨"q", constReason ⟨1, "r"⟩, [], false⟩ =
      .error (.thrown "Router requires at least one model configuration") ∧
    Positional.router (constReason ⟨1, "r"⟩) [] "q" {} =
      .error (.thrown "Router requires at least one model configuration") := by
  refine ⟨?_, ?_, ?_, ?_⟩
  · exact (router_construction_nonempty_iff tsConst ⟨"q", constReason ⟨1, "r"⟩, [cfgOne], false⟩
      (constReason ⟨1, "r"⟩) [cfgOne] "q" {}).1.mpr (by simp)
  · exact (router_construction_nonempty_iff tsConst ⟨"q", constReason ⟨1, "r"⟩, [cfgOne], false⟩
      (constReason ⟨1, "r"⟩) [cfgOne] "q" {}).2.2.1.mpr (by simp)
  · exact (router_construction_nonempty_iff tsConst ⟨"q", constReason ⟨1, "r"⟩, [], false⟩
      (constReason ⟨1, "r"⟩) [] "q" {}).2.1 rfl
  · exact (router_construction_nonempty_iff tsConst ⟨"q", constReason ⟨1, "r"⟩, [], false⟩
      (constReason ⟨1, "r"⟩) [] "q" {}).2.2.2 rfl

/-- C7: a proxy returned by `modelRouter` forwards the very options
object it received to the selected model's `doGenerate`/`doStream` and
returns that model's result (or error) exactly as produced; a selection
failure propagates unmodified as well — no wrapping, no retry. -/
theorem router_forwards_options_and_results (ts : Nat → String)
    (config : ModelRouterOptions) (handle : LanguageModelV2) (options : CallOptions)
    (hc : modelRouter ts config = .ok handle) :
    (∀ m, selectModel config.reasoningModel config.models config.prompt options ts = .ok m →
      handle.doGenerate options = m.doGenerate options ∧
      handle.doStream options = m.doStream options) ∧
    (∀ e, selectModel config.reasoningModel config.models config.prompt options ts = .error e →
      handle.doGenerate options = .error e ∧
      handle.doStream options = .error e) := by
  unfold modelRouter at hc
  split at hc
  · exact absurd hc (by simp)
  · injection hc with h
    subst h
    constructor
    · intro m hm
      constructor
      · show routerDoGenerate config.reasoningModel config.models config.prompt ts options = _
        unfold routerDoGenerate
        rw [hm]
      · show routerDoStream config.reasoningModel config.models config.prompt ts options = _
        unfold routerDoStream
        rw [hm]
    · intro e he
      constructor
      · show routerDoGenerate config.reasoningModel config.models config.prompt ts options = _
        unfold routerDoGenerate
        rw [he]
      · show routerDoStream config.reasoningModel config.models config.prompt ts options = _
        unfold routerDoStream
        rw [he]

/-- A default (empty) call options fixture. -/
def optsEx : CallOptions := {}

/-- The proxy handle `modelRouter` returns for the one-candidate fixture. -/
def routerHandleEx : LanguageModelV2 :=
  { specificationVersion := "v2"
    provider := "model-router"
    modelId := "model-router"
    doGenerate := routerDoGenerate (constReason ⟨1, "r"⟩) [cfgOne] "q" tsConst
    doStream := routerDoStream (constReason ⟨1, "r"⟩) [cfgOne] "q" tsConst }

/-- C7 witness: on the concrete fixture the proxy's two methods return
exactly what the selected model's methods return on the same options. -/
theorem router_forwards_options_and_results_witness :
    routerHandleEx.doGenerate optsEx = (dummyModel "m1").doGenerate optsEx ∧
    routerHandleEx.doStream optsEx = (dummyModel "m1").doStream optsEx := by
  have h := router_forwards_options_and_results tsConst
    ⟨"q", constReason ⟨1, "r"⟩, [cfgOne], false⟩ routerHandleEx optsEx rfl
  exact h.1 (dummyModel "m1") rfl

/-- C1: whenever the reasoning model answers the decision prompt with a
structured result whose `modelIndex` is `k` with `1 ≤ k ≤ n`,
`selectModel` resolves to the candidate at position `k - 1` (0-based) of
the list, and the router proxy delegates generation to exactly that
candidate's model. -/
theorem selectModel_delegates_to_kth (reasoningModel : ReasoningModel)
    (models : List ModelRouterConfig) (inputPrompt : String) (options : CallOptions)
    (ts : Nat → String) (hist : String) (r : SelectionResult)
    (hh : extractToolCallHistory ts (extractMessages options) 10 = .ok hist)
    (hr : reasoningModel (selectionPromptV1 inputPrompt (availableToolsString options.tools)
      hist (modelOptionsString models) models.length) = .ok r)
    (h1 : 1 ≤ r.modelIndex) (h2 : r.modelIndex ≤ (models.length : Int)) :
    ∃ hk : (r.modelIndex - 1).toNat < models.length,
      selectModel reasoningModel models inputPrompt options ts =
        .ok (models.get ⟨(r.modelIndex - 1).toNat, hk⟩).model ∧
      routerDoGenerate reasoningModel models inputPrompt ts options =
        ((models.get ⟨(r.modelIndex - 1).toNat, hk⟩).model).doGenerate options := by
  have hk : (r.modelIndex - 1).toNat < models.length := by omega
  have hsel : selectModel reasoningModel models inputPrompt options ts =
      .ok (models.get ⟨(r.modelIndex - 1).toNat, hk⟩).model := by
    unfold selectModel
    rw [hh]
    dsimp only
    unfold generateObjectSel
    rw [hr]
    dsimp only
    have hs : schemaOk models.length r = true := by
      unfold schemaOk
      simp only [Bool.and_eq_true, decide_eq_true_eq]
      exact ⟨h1, h2⟩
    rw [if_pos hs]
    dsimp only
    have hnn : ¬ r.modelIndex - 1 < 0 := by omega
    unfold listAtInt
    rw [if_neg hnn, List.get?_eq_get hk]
  refine ⟨hk, hsel, ?_⟩
  unfold routerDoGenerate
  rw [hsel]

/-- C1 witness: with two candidates and a reasoning model answering
`modelIndex = 2`, `selectModel` returns the second candidate's model. -/
theorem selectModel_delegates_to_kth_witness :
    selectModel (constReason ⟨2, "r"⟩) [cfgOne, cfgTwo] "q" optsEx tsConst =
      .ok (dummyModel "m2") := by
  obtain ⟨hk, hsel, _⟩ := selectModel_delegates_to_kth (constReason ⟨2, "r"⟩)
    [cfgOne, cfgTwo] "q" optsEx tsConst "None - This is the first request"
    ⟨2, "r"⟩ rfl rfl (by decide) (by decide)
  exact hsel

/-- C3 counterexample: with limit `0`, `slice(-0)` is `slice(0)`, so the
whole completed list is returned: on a transcript with one completed
call, the history has 1 entry, not `min 1 0 = 0`. -/
theorem history_limit_zero_counterexample :
    (recentCalls tsConst exMsgs 0).length ≠
      min (completedToolCalls tsConst exMsgs).length 0 := by
  decide

/-- C3 amended: for every transcript and every limit of at least one,
the retained history entries are exactly `min M limit` of the `M`
completed calls, and they form a suffix of the completed-call list (in
call order, the most recent retained); at limit `0` the code keeps all
`M` entries instead, because `slice(-0)` is `slice(0)`. -/
theorem history_min_limit (ts : Nat → String) (msgs : List Message) (limit : Nat)
    (hl : 1 ≤ limit) :
    (recentCalls ts msgs limit).length =
      min (completedToolCalls ts msgs).length limit ∧
    List.IsSuffix (recentCalls ts msgs limit) (completedToolCalls ts msgs) := by
  have h0 : ¬ limit = 0 := by omega
  unfold recentCalls jsSliceNeg
  rw [if_neg h0]
  constructor
  · rw [List.length_drop]
    omega
  · exact List.drop_suffix _ _

/-- C3 witness: on the one-completed-call transcript with the default
limit 10, exactly `min 1 10 = 1` entry is retained and it is a suffix of
the completed list. -/
theorem history_min_limit_witness :
    (recentCalls tsConst exMsgs 10).length =
      min (completedToolCalls tsConst exMsgs).length 10 ∧
    List.IsSuffix (recentCalls tsConst exMsgs 10) (completedToolCalls tsConst exMsgs) :=
  history_min_limit tsConst exMsgs 10 (by decide)

/-- Unfolding lemma: the walk over a cons processes the head message and
continues. -/
theorem walkFrom_cons (ts : Nat → String) (m : Message) (l : List Message) (st : WalkSt) :
    walkFrom ts (m :: l) st = walkFrom ts l (procMessage ts m st) :=
  rfl

/-- A message whose content is not an array leaves the walk state
untouched. -/
theorem procMessage_nonarray (ts : Nat → String) (m : Message) (st : WalkSt)
    (h : contentIsArray m = false) : procMessage ts m st = st := by
  unfold procMessage
  unfold contentIsArray at h
  cases hc : m.content with
  | arr parts => rw [hc] at h; simp at h
  | nonArray => rfl

/-- Filtering out the non-array-content messages does not change the
walk, from any starting state. -/
theorem walkFrom_filter (ts : Nat → String) (msgs : List Message) (st : WalkSt) :
    walkFrom ts (msgs.filter contentIsArray) st = walkFrom ts msgs st := by
  induction msgs generalizing st with
  | nil => rfl
  | cons m l ih =>
    rw [List.filter_cons]
    cases h : contentIsArray m with
    | true => rw [if_pos (by simp [h]), walkFrom_cons, walkFrom_cons, ih]
    | false =>
      rw [if_neg (by simp [h]), walkFrom_cons, procMessage_nonarray ts m st h, ih]

/-- C10: messages whose `content` field is not an array are skipped
entirely by the history extraction — the walk (and hence the completed
list feeding the history) over any transcript equals the walk over the
transcript with all non-array-content messages removed, whatever the
roles of the dropped messages. -/
theorem nonarray_content_skipped (ts : Nat → String) (msgs : List Message) :
    walkMessages ts (msgs.filter contentIsArray) = walkMessages ts msgs ∧
    completedToolCalls ts (msgs.filter contentIsArray) = completedToolCalls ts msgs := by
  refine ⟨walkFrom_filter ts msgs _, ?_⟩
  unfold completedToolCalls walkMessages
  rw [walkFrom_filter]

/-- `removeFirstByName` on a pending map split around its first
same-named entry removes exactly that entry. -/
theorem removeFirstByName_append (tn : String) (pre suf : List (String × TCall))
    (k : String) (c : TCall) (hc : c.toolName = some tn)
    (hpre : ∀ e ∈ pre, e.2.toolName ≠ some tn) :
    removeFirstByName tn (pre ++ (k, c) :: suf) = some (c, pre ++ suf) := by
  induction pre with
  | nil => simp [removeFirstByName, hc]
  | cons e rest ih =>
    obtain ⟨ke, ve⟩ := e
    have hv : ¬ ve.toolName = some tn := hpre (ke, ve) (by simp)
    rw [List.cons_append, removeFirstByName, if_neg hv,
      ih (fun x hx => hpre x (by simp [hx]))]
    rfl

/-- The no-identifier-match condition of the fallback branch: the
result's `toolCallId || part.id` is falsy, or names no key of the
pending map. -/
def noIdMatch (cid : Option String) (pending : List (String × TCall)) : Prop :=
  match cid with
  | none => True
  | some s => s = "" ∨ mapTake s pending = none

/-- C9: when a tool-result part's call identifier matches no pending
call, matching falls back to the tool name: the first pending call with
that name (in recorded order) is moved to completed, and every other
pending entry — in particular every later same-named one — stays
pending. -/
theorem result_name_fallback_first_match (p : ContentPart) (st : WalkSt)
    (tn : String) (pre suf : List (String × TCall)) (k : String) (c : TCall)
    (htype : p.type = "tool-result")
    (hname : p.toolName = some tn) (htn : tn ≠ "")
    (hno : noIdMatch (jsOrStr p.toolCallId p.id) st.pending)
    (hpend : st.pending = pre ++ (k, c) :: suf)
    (hc : c.toolName = some tn)
    (hpre : ∀ e ∈ pre, e.2.toolName ≠ some tn) :
    procToolResultPart p st = ⟨st.completed ++ [c], pre ++ suf, st.ctr⟩ := by
  have hfb : resultNameFallback p.toolName st = ⟨st.completed ++ [c], pre ++ suf, st.ctr⟩ := by
    unfold resultNameFallback
    rw [hname]
    dsimp only
    rw [if_neg htn, hpend, removeFirstByName_append tn pre suf k c hc hpre]
  unfold procToolResultPart
  rw [if_pos htype]
  unfold noIdMatch at hno
  cases hcid : jsOrStr p.toolCallId p.id with
  | none => exact hfb
  | some s =>
    rw [hcid] at hno
    dsimp only at hno ⊢
    by_cases hs : s = ""
    · rw [if_pos hs]; exact hfb
    · rw [if_neg hs]
      rcases hno with hno | hno
      · exact absurd hno hs
      · rw [hno]; exact hfb

/-- Pending-map fixture: one `beta` call followed by two `alpha` calls. -/
def pendSt : WalkSt :=
  ⟨[], [("c0", ⟨some "beta", some "B"⟩), ("c1", ⟨some "alpha", some "A1"⟩),
    ("c2", ⟨some "alpha", some "A2"⟩)], 0⟩

/-- A tool-result part whose id matches no pending key. -/
def strayResultPart : ContentPart :=
  { type := "tool-result"
    toolCallId := some "zz"
    toolName := some "alpha" }

/-- C9 witness: a result for `alpha` whose id matches nothing completes
the first pending `alpha` call and leaves the second one pending. -/
theorem result_name_fallback_first_match_witness :
    procToolResultPart strayResultPart pendSt =
      ⟨[⟨some "alpha", some "A1"⟩],
        [("c0", ⟨some "beta", some "B"⟩), ("c2", ⟨some "alpha", some "A2"⟩)], 0⟩ := by
  have h := result_name_fallback_first_match strayResultPart pendSt "alpha"
    [("c0", ⟨some "beta", some "B"⟩)] [("c2", ⟨some "alpha", some "A2"⟩)]
    "c1" ⟨some "alpha", some "A1"⟩ rfl rfl (by decide)
    (by right; rfl) rfl rfl (by decide)
  exact h

/-- Two-candidate fixture list. -/
def exModels2 : List ModelRouterConfig := [cfgOne, cfgTwo]

/-- A reasoning model that answers index 1 exactly on the decision
prompt the configuration-object variant builds for the fixture inputs,
and index 2 on any other prompt: it distinguishes the two variants by
the prompt they send. -/
def reasonDiscr : ReasoningModel := fun p =>
  if p = selectionPromptV1 "q" (availableToolsString none)
      "None - This is the first request" (modelOptionsString exModels2) 2 then
    .ok ⟨1, "matched the config-object variant prompt"⟩
  else
    .ok ⟨2, "saw a different prompt"⟩

set_option maxRecDepth 8000 in
/-- C5 counterexample: with the same reasoning model, the same candidate
list, the same original prompt and the same (empty) call options, the
configuration-object variant delegates to candidate 1 while the
positional variant delegates to candidate 2 — the two construction
variants send different decision prompts (the positional one has no
tool-call-history section), so their behavior is not identical. -/
theorem variants_not_identical_counterexample :
    (selectModel reasonDiscr exModels2 "q" optsEx tsConst).map (fun m => m.modelId) ≠
      (Positional.selectModel reasonDiscr exModels2 "q" optsEx).map (fun m => m.modelId) := by
  have h1 : (selectModel reasonDiscr exModels2 "q" optsEx tsConst).map
      (fun m => m.modelId) = .ok "m1" := rfl
  have h2 : (Positional.selectModel reasonDiscr exModels2 "q" optsEx).map
      (fun m => m.modelId) = .ok "m2" := rfl
  rw [h1, h2]
  simp

/-- C5 amended: the two construction variants validate the candidate
list identically and resolve a selection result identically — whenever
their reasoning calls return the same in-bounds `modelIndex`, both
delegate to the model of `candidates[modelIndex - 1]` — but they are not
behaviorally identical, because they build different decision prompts:
the positional variant's prompt omits the tool-call-history section and
hardcodes the valid-range text. -/
theorem variants_same_resolution (rm1 rm2 : ReasoningModel)
    (models : List ModelRouterConfig) (inputPrompt : String) (options : CallOptions)
    (ts : Nat → String) (hist : String) (r : SelectionResult)
    (hh : extractToolCallHistory ts (extractMessages options) 10 = .ok hist)
    (hr1 : rm1 (selectionPromptV1 inputPrompt (availableToolsString options.tools)
      hist (modelOptionsString models) models.length) = .ok r)
    (hr2 : rm2 (Positional.selectionPromptV2 inputPrompt (availableToolsString options.tools)
      (modelOptionsString models) models.length) = .ok r)
    (h1 : 1 ≤ r.modelIndex) (h2 : r.modelIndex ≤ (models.length : Int)) :
    ∃ hk : (r.modelIndex - 1).toNat < models.length,
      selectModel rm1 models inputPrompt options ts =
        .ok (models.get ⟨(r.modelIndex - 1).toNat, hk⟩).model ∧
      Positional.selectModel rm2 models inputPrompt options =
        .ok (models.get ⟨(r.modelIndex - 1).toNat, hk⟩).model := by
  have hk : (r.modelIndex - 1).toNat < models.length := by omega
  have hs : schemaOk models.length r = true := by
    unfold schemaOk
    simp only [Bool.and_eq_true, decide_eq_true_eq]
    exact ⟨h1, h2⟩
  have hnn : ¬ r.modelIndex - 1 < 0 := by omega
  refine ⟨hk, ?_, ?_⟩
  · unfold selectModel
    rw [hh]
    dsimp only
    unfold generateObjectSel
    rw [hr1]
    dsimp only
    rw [if_pos hs]
    dsimp only
    unfold listAtInt
    rw [if_neg hnn, List.get?_eq_get hk]
  · unfold Positional.selectModel
    dsimp only
    unfold generateObjectSel
    rw [hr2]
    dsimp only
    rw [if_pos hs]
    dsimp only
    unfold listAtInt
    rw [if_neg hnn, List.get?_eq_get hk]

/-- C5 amended witness: with both variants' reasoning calls answering
index 1 on the one-candidate fixture, both resolve to the same model. -/
theorem variants_same_resolution_witness :
    selectModel (constReason ⟨1, "r"⟩) [cfgOne] "q" optsEx tsConst = .ok (dummyModel "m1") ∧
    Positional.selectModel (constReason ⟨1, "r"⟩) [cfgOne] "q" optsEx = .ok (dummyModel "m1") := by
  obtain ⟨hk, hsel1, hsel2⟩ := variants_same_resolution (constReason ⟨1, "r"⟩)
    (constReason ⟨1, "r"⟩) [cfgOne] "q" optsEx tsConst
    "None - This is the first request" ⟨1, "r"⟩ rfl rfl rfl (by decide) (by decide)
  exact ⟨hsel1, hsel2⟩

/-- Occurrence count of a cons. -/
theorem occCount_cons (c x : TCall) (l : List TCall) :
    occCount c (x :: l) = occCount c l + (if x = c then 1 else 0) := by
  unfold occCount
  rw [List.countP_cons]
  simp

/-- Occurrence count of an append. -/
theorem occCount_append (c : TCall) (a b : List TCall) :
    occCount c (a ++ b) = occCount c a + occCount c b := by
  unfold occCount
  rw [List.countP_append]

/-- A sublist has no more occurrences. -/
theorem occCount_le_of_sublist (c : TCall) {a b : List TCall} (h : a.Sublist b) :
    occCount c a ≤ occCount c b :=
  List.Sublist.countP_le _ h

/-- `Map.set` adds at most one occurrence of the stored value to the
pending map's values (it may also drop an overwritten value). -/
theorem occCount_mapSet_le (c : TCall) (k : String) (v : TCall)
    (m : List (String × TCall)) :
    occCount c ((mapSet k v m).map Prod.snd) ≤
      occCount c (m.map Prod.snd) + (if v = c then 1 else 0) := by
  induction m with
  | nil =>
    simp only [mapSet, List.map_cons, List.map_nil, occCount_cons]
    simp [occCount]
  | cons e rest ih =>
    obtain ⟨k', v'⟩ := e
    rw [mapSet]
    by_cases hk : k' = k
    · rw [if_pos hk]
      simp only [List.map_cons, occCount_cons]
      omega
    · rw [if_neg hk]
      simp only [List.map_cons, occCount_cons]
      omega

/-- Removing the entry found by `mapTake` moves exactly one occurrence
of its value out of the pending map's values. -/
theorem occCount_mapTake (c : TCall) (k : String) (v : TCall)
    (m m' : List (String × TCall)) (h : mapTake k m = some (v, m')) :
    occCount c (m.map Prod.snd) =
      occCount c (m'.map Prod.snd) + (if v = c then 1 else 0) := by
  induction m generalizing m' with
  | nil => exact absurd h (by simp [mapTake])
  | cons e rest ih =>
    obtain ⟨k', w⟩ := e
    rw [mapTake] at h
    by_cases hk : k' = k
    · rw [if_pos hk] at h
      simp only [Option.some.injEq, Prod.mk.injEq] at h
      obtain ⟨h1, h2⟩ := h
      subst h1; subst h2
      simp only [List.map_cons, occCount_cons]
    · rw [if_neg hk] at h
      cases ht : mapTake k rest with
      | none => rw [ht] at h; exact absurd h (by simp)
      | some r =>
        obtain ⟨v0, rest0⟩ := r
        rw [ht] at h
        simp only [Option.map_some', Option.some.injEq, Prod.mk.injEq] at h
        obtain ⟨h1, h2⟩ := h
        subst h1
        subst h2
        simp only [List.map_cons, occCount_cons]
        rw [ih rest0 ht]
        omega

/-- Removing the entry found by `removeFirstByName` moves exactly one
occurrence of its value out of the pending map's values. -/
theorem occCount_removeFirstByName (c : TCall) (tn : String) (v : TCall)
    (m m' : List (String × TCall)) (h : removeFirstByName tn m = some (v, m')) :
    occCount c (m.map Prod.snd) =
      occCount c (m'.map Prod.snd) + (if v = c then 1 else 0) := by
  induction m generalizing m' with
  | nil => exact absurd h (by simp [removeFirstByName])
  | cons e rest ih =>
    obtain ⟨k', w⟩ := e
    rw [removeFirstByName] at h
    by_cases hn : w.toolName = some tn
    · rw [if_pos hn] at h
      simp only [Option.some.injEq, Prod.mk.injEq] at h
      obtain ⟨h1, h2⟩ := h
      subst h1; subst h2
      simp only [List.map_cons, occCount_cons]
    · rw [if_neg hn] at h
      cases ht : removeFirstByName tn rest with
      | none => rw [ht] at h; exact absurd h (by simp)
      | some r =>
        obtain ⟨v0, rest0⟩ := r
        rw [ht] at h
        simp only [Option.map_some', Option.some.injEq, Prod.mk.injEq] at h
        obtain ⟨h1, h2⟩ := h
        subst h1
        subst h2
        simp only [List.map_cons, occCount_cons]
        rw [ih rest0 ht]
        omega

/-- Occurrence count of a singleton. -/
theorem occCount_singleton (c x : TCall) :
    occCount c [x] = if x = c then 1 else 0 := by
  rw [occCount_cons]
  simp [occCount]

/-- Processing a part of an assistant message adds at most its payload
occurrence to completed-plus-pending. -/
theorem stepSum_toolCallPart (ts : Nat → String) (c : TCall) (p : ContentPart)
    (st : WalkSt) :
    occCount c (procToolCallPart ts p st).completed +
      occCount c ((procToolCallPart ts p st).pending.map Prod.snd) ≤
    occCount c st.completed + occCount c (st.pending.map Prod.snd) +
      occCount c (partPayload p) := by
  unfold procToolCallPart partPayload
  by_cases hp : p.type = "tool-call"
  · rw [if_pos hp, if_pos hp]
    dsimp only
    have hset := occCount_mapSet_le c
      (jsOrD (jsOrStr p.toolCallId p.id) (jsShow p.toolName ++ "-" ++ ts st.ctr))
      ⟨p.toolName, jsOrStr p.args p.input⟩ st.pending
    rw [occCount_singleton]
    omega
  · rw [if_neg hp, if_neg hp]
    simp [occCount]

/-- Processing a part of a tool message never increases
completed-plus-pending occurrences. -/
theorem stepSum_toolResultPart (c : TCall) (p : ContentPart) (st : WalkSt) :
    occCount c (procToolResultPart p st).completed +
      occCount c ((procToolResultPart p st).pending.map Prod.snd) ≤
    occCount c st.completed + occCount c (st.pending.map Prod.snd) := by
  have hfb : ∀ tnOpt, occCount c (resultNameFallback tnOpt st).completed +
      occCount c ((resultNameFallback tnOpt st).pending.map Prod.snd) ≤
      occCount c st.completed + occCount c (st.pending.map Prod.snd) := by
    intro tnOpt
    unfold resultNameFallback
    cases tnOpt with
    | none => exact le_refl _
    | some tn =>
      dsimp only
      by_cases htn : tn = ""
      · rw [if_pos htn]
      · rw [if_neg htn]
        cases hrm : removeFirstByName tn st.pending with
        | none => exact le_refl _
        | some r =>
          obtain ⟨c0, m'⟩ := r
          dsimp only
          have hmove := occCount_removeFirstByName c tn c0 st.pending m' hrm
          rw [occCount_append, occCount_singleton]
          omega
  unfold procToolResultPart
  by_cases hp : p.type = "tool-result"
  · rw [if_pos hp]
    cases hcid : jsOrStr p.toolCallId p.id with
    | none => exact hfb _
    | some s =>
      dsimp only
      by_cases hs : s = ""
      · rw [if_pos hs]; exact hfb _
      · rw [if_neg hs]
        cases hmt : mapTake s st.pending with
        | none => exact hfb _
        | some r =>
          obtain ⟨c0, m'⟩ := r
          dsimp only
          have hmove := occCount_mapTake c s c0 st.pending m' hmt
          rw [occCount_append, occCount_singleton]
          omega
  · rw [if_neg hp]

/-- Folding the assistant-part processor over a part list adds at most
the parts' payload occurrences. -/
theorem stepSum_assistantParts (ts : Nat → String) (c : TCall)
    (parts : List ContentPart) (st : WalkSt) :
    occCount c ((parts.foldl (fun s p => procToolCallPart ts p s) st).completed) +
      occCount c (((parts.foldl (fun s p => procToolCallPart ts p s) st).pending).map Prod.snd) ≤
    occCount c st.completed + occCount c (st.pending.map Prod.snd) +
      occCount c (parts.flatMap partPayload) := by
  induction parts generalizing st with
  | nil => simp [occCount]
  | cons p rest ih =>
    rw [List.foldl_cons, List.flatMap_cons, occCount_append]
    have h1 := stepSum_toolCallPart ts c p st
    have h2 := ih (procToolCallPart ts p st)
    omega

/-- Folding the tool-part processor over a part list never increases
completed-plus-pending occurrences. -/
theorem stepSum_toolParts (c : TCall) (parts : List ContentPart) (st : WalkSt) :
    occCount c ((parts.foldl (fun s p => procToolResultPart p s) st).completed) +
      occCount c (((parts.foldl (fun s p => procToolResultPart p s) st).pending).map Prod.snd) ≤
    occCount c st.completed + occCount c (st.pending.map Prod.snd) := by
  induction parts generalizing st with
  | nil => exact le_refl _
  | cons p rest ih =>
    rw [List.foldl_cons]
    have h1 := stepSum_toolResultPart c p st
    have h2 := ih (procToolResultPart p st)
    omega

/-- Processing one message adds at most the message's tool-call payload
occurrences to completed-plus-pending. -/
theorem stepSum_message (ts : Nat → String) (c : TCall) (m : Message) (st : WalkSt) :
    occCount c (procMessage ts m st).completed +
      occCount c ((procMessage ts m st).pending.map Prod.snd) ≤
    occCount c st.completed + occCount c (st.pending.map Prod.snd) +
      occCount c (msgPayloads m) := by
  unfold procMessage msgPayloads
  cases m.content with
  | nonArray => simp [occCount]
  | arr parts =>
    dsimp only
    by_cases ha : m.role = "assistant"
    · rw [if_pos ha, if_pos ha]
      exact stepSum_assistantParts ts c parts st
    · rw [if_neg ha, if_neg ha]
      by_cases htl : m.role = "tool"
      · rw [if_pos htl]
        have hfold := stepSum_toolParts c parts st
        have hz : occCount c ([] : List TCall) = 0 := rfl
        omega
      · rw [if_neg htl]
        have hz : occCount c ([] : List TCall) = 0 := rfl
        omega
  
/-- The walk from any state adds at most the transcript's tool-call
payload occurrences to completed-plus-pending. -/
theorem stepSum_walkFrom (ts : Nat → String) (c : TCall) (msgs : List Message)
    (st : WalkSt) :
    occCount c (walkFrom ts msgs st).completed +
      occCount c ((walkFrom ts msgs st).pending.map Prod.snd) ≤
    occCount c st.completed + occCount c (st.pending.map Prod.snd) +
      occCount c (toolCallPayloads msgs) := by
  induction msgs generalizing st with
  | nil => simp [walkFrom, toolCallPayloads, occCount]
  | cons m rest ih =>
    rw [walkFrom_cons]
    unfold toolCallPayloads
    rw [List.flatMap_cons, occCount_append]
    have h1 := stepSum_message ts c m st
    have h2 := ih (procMessage ts m st)
    unfold toolCallPayloads at h2
    omega

/-- C4: a tool call that is still pending when the message walk ends
never appears in the extracted history: for every recorded-call value,
its occurrences in the retained history plus its occurrences among the
still-pending calls never exceed its occurrences among all tool-call
parts of the transcript — every history occurrence is accounted for by a
matched (non-pending) call part. -/
theorem pending_never_in_history (ts : Nat → String) (msgs : List Message)
    (limit : Nat) (c : TCall) :
    occCount c (recentCalls ts msgs limit) +
      occCount c ((walkMessages ts msgs).pending.map Prod.snd) ≤
    occCount c (toolCallPayloads msgs) := by
  have hw := stepSum_walkFrom ts c msgs ⟨[], [], 0⟩
  have hr : occCount c (recentCalls ts msgs limit) ≤
      occCount c (completedToolCalls ts msgs) := by
    unfold recentCalls jsSliceNeg
    by_cases h0 : limit = 0
    · rw [if_pos h0]
    · rw [if_neg h0]
      exact occCount_le_of_sublist c (List.drop_suffix _ _).sublist
  have hwm : walkMessages ts msgs = walkFrom ts msgs ⟨[], [], 0⟩ := rfl
  have hcc : completedToolCalls ts msgs = (walkMessages ts msgs).completed := rfl
  rw [hwm]
  rw [hcc, hwm] at hr
  have h1 : occCount c (WalkSt.mk [] [] 0).completed = 0 := rfl
  have h2 : occCount c ((WalkSt.mk [] [] 0).pending.map Prod.snd) = 0 := rfl
  omega

/-- C8 witness: the sentinel equalities at the concrete clock and the
default limit 10. -/
theorem empty_transcript_sentinel_witness :
    extractToolCallHistory tsConst none 10 = .ok "None - This is the first request" ∧
    extractToolCallHistory tsConst (some []) 10 = .ok "None - This is the first request" ∧
    "None - This is the first request" ≠ "" :=
  empty_transcript_sentinel tsConst 10
